import Mathlib

/-!
Shallow embedding of the `redb_wallet_storage` persistence adapter
(`src/src/lib.rs`).

The adapter stores a single serialized wallet changeset under one fixed key
of one fixed table of an embedded key-value database (redb).  The domain
changeset type is external (`bdk_wallet::ChangeSet`); the adapter only uses
its `default`, `is_empty`, `merge`, and serde encode/decode, so the
embedding is parametric in a changeset implementation.

The storage engine (redb) is external as well; it is modelled by
- a `DbState` holding the fixed table (absent or present) and, inside it,
  the optional byte payload at the fixed key `CHANGESET_KEY`;
- an explicit failure schedule `Fail` saying which engine calls fail
  (begin_read / begin_write / open_table / get / insert / commit), with the
  error-kind mapping taken from the `From` impls of `RedbError` in the
  source (`TransactionError -> Transaction`, `TableError -> Table`,
  `StorageError -> Database`, `CommitError -> Commit`);
- redb write-transaction semantics: mutations become visible only at
  `commit`, and `WriteTransaction::open_table` creates the table when it is
  missing (this is how `RedbStore::create` itself creates the table),
  whereas `ReadTransaction::open_table` fails with a table error.
-/

/-- Interface of the external wallet-domain changeset type as used by the
adapter: default construction, emptiness test, merge (merging the second
argument into the first, as `Merge::merge`), and the serde byte codec
(`serde_json::to_vec` / `serde_json::from_slice`), both fallible. -/
structure ChangesetImpl (C : Type) where
  empty : C
  is_empty : C → Bool
  merge : C → C → C
  ser : C → Option (List Nat)
  deser : List Nat → Option C

/-- The properties the spec assumes of the domain changeset: the merge is a
commutative, associative monoid with the default value as identity, the
emptiness test recognises exactly the default value, serialization is
total, and the codec round-trips. -/
structure LawfulChangeset {C : Type} (I : ChangesetImpl C) : Prop where
  merge_comm : ∀ a b, I.merge a b = I.merge b a
  merge_assoc : ∀ a b c, I.merge (I.merge a b) c = I.merge a (I.merge b c)
  merge_empty_left : ∀ a, I.merge I.empty a = a
  merge_empty_right : ∀ a, I.merge a I.empty = a
  is_empty_iff : ∀ a, I.is_empty a = true ↔ a = I.empty
  ser_total : ∀ a, (I.ser a).isSome
  roundtrip : ∀ a b, I.ser a = some b → I.deser b = some a

/-- Error kinds of `RedbError` (`src/src/lib.rs`, the `RedbError` enum). -/
inductive RedbError where
  | Database
  | Serialization
  | Deserialization
  | Io
  | Commit
  | Table
  | Transaction
deriving DecidableEq, Repr

/-- State of the database file behind one `RedbStore`: `table = none` means
the fixed wallet table is absent; `table = some v` means it is present and
`v` is the optional byte payload stored at the fixed changeset key (the
adapter never writes any other key). -/
structure DbState where
  table : Option (Option (List Nat))
deriving DecidableEq, Repr

/-- Failure schedule for the engine calls an operation performs; `true`
means that call fails.  The adapter maps each failure to the error kind
given by the corresponding `From` impl in the source. -/
structure Fail where
  beginRead : Bool
  beginWrite : Bool
  openTableRead : Bool
  openTableWrite : Bool
  getFail : Bool
  insertFail : Bool
  commitFail : Bool
deriving DecidableEq, Repr

/-- The schedule on which every engine call succeeds. -/
def noFail : Fail :=
  { beginRead := false, beginWrite := false, openTableRead := false
    openTableWrite := false, getFail := false, insertFail := false
    commitFail := false }

/-- A database file as seen by `Database::open`: it may be structurally
invalid (not a redb file / corrupted), already locked by another opener,
and it carries the wallet table's state (possibly absent).  `open` inspects
only validity and the lock, never the table. -/
structure DbFile where
  valid : Bool
  locked : Bool
  table : Option (Option (List Nat))
deriving DecidableEq, Repr

/-- `RedbStore::open` (lib.rs:265-271): `Database::open` fails with a
database-kind error when the file is missing, invalid or locked; otherwise
the store is returned without touching the wallet table. -/
def openStore (file : Option DbFile) : Except RedbError DbState :=
  match file with
  | none => .error .Database
  | some f =>
    if f.valid && !f.locked then .ok ⟨f.table⟩ else .error .Database

/-- `RedbStore::open_with_config` (lib.rs:296-302): identical to `open`
except that an opaque engine configuration value is passed through to the
engine; the adapter never inspects it. -/
def openWithConfig {α : Type} (_config : α) (file : Option DbFile) : Except RedbError DbState :=
  match file with
  | none => .error .Database
  | some f =>
    if f.valid && !f.locked then .ok ⟨f.table⟩ else .error .Database

/-- `RedbStore::create` (lib.rs:193-207): fails with a database-kind error
if the file exists; otherwise creates the file, opens a write transaction,
opens (and thereby creates) the wallet table, and commits. -/
def createStore (f : Fail) (file : Option DbFile) : Except RedbError DbState :=
  match file with
  | some _ => .error .Database
  | none =>
    if f.beginWrite then .error .Transaction
    else if f.openTableWrite then .error .Table
    else if f.commitFail then .error .Commit
    else .ok ⟨some none⟩

/-- `RedbStore::get_changeset` (lib.rs:349-362): begin a read transaction,
open the table (a read-transaction `open_table` fails when the table is
absent), look up the fixed key; absent key gives `Ok(None)`, a present
payload is deserialized, and a payload that does not decode gives a
deserialization-kind error. -/
def get_changeset {C : Type} (I : ChangesetImpl C) (f : Fail) (st : DbState) :
    Except RedbError (Option C) :=
  if f.beginRead then .error .Transaction
  else
    match st.table with
    | none => .error .Table
    | some kv =>
      if f.openTableRead then .error .Table
      else if f.getFail then .error .Database
      else
        match kv with
        | some bytes =>
          match I.deser bytes with
          | some c => .ok (some c)
          | none => .error .Deserialization
        | none => .ok none

/-- `RedbStore::store_changeset` (lib.rs:365-384): an empty changeset
returns `Ok` at once, before any engine call.  Otherwise a write
transaction is begun, the table is opened (created when absent, per redb
write-transaction semantics), the changeset is serialized, the bytes are
inserted at the fixed key, and the transaction is committed; the durable
state changes only at the commit, so every failure before it leaves the
prior state untouched.  The pair returned is (result, durable state
afterwards). -/
def store_changeset {C : Type} (I : ChangesetImpl C) (f : Fail) (c : C) (st : DbState) :
    Except RedbError Unit × DbState :=
  if I.is_empty c then (.ok (), st)
  else if f.beginWrite then (.error .Transaction, st)
  else if f.openTableWrite then (.error .Table, st)
  else
    match I.ser c with
    | none => (.error .Serialization, st)
    | some bytes =>
      if f.insertFail then (.error .Database, st)
      else if f.commitFail then (.error .Commit, st)
      else (.ok (), ⟨some (some bytes)⟩)

/-- `RedbStore::table_stats` (lib.rs:342-346): a read transaction and a
read-transaction `open_table`, then the table statistics (modelled as the
number of entries stored at the fixed key). -/
def tableStats (f : Fail) (st : DbState) : Except RedbError Nat :=
  if f.beginRead then .error .Transaction
  else
    match st.table with
    | none => .error .Table
    | some kv =>
      if f.openTableRead then .error .Table
      else .ok (match kv with | some _ => 1 | none => 0)

/-- `WalletPersister::initialize` for `RedbStore` (lib.rs:475-478):
`get_changeset` with the absent record mapped to the default changeset. -/
def initializeF {C : Type} (I : ChangesetImpl C) (f : Fail) (st : DbState) :
    Except RedbError C :=
  (get_changeset I f st).map (fun opt => opt.getD I.empty)

/-- `WalletPersister::persist` for `RedbStore` (lib.rs:480-495): read the
existing record; when present, merge the argument into it, otherwise take
the argument itself; then `store_changeset` the result.  Reads do not
mutate the durable state, so a read-path failure returns the state
unchanged. -/
def persistF {C : Type} (I : ChangesetImpl C) (f : Fail) (c : C) (st : DbState) :
    Except RedbError Unit × DbState :=
  match get_changeset I f st with
  | .error e => (.error e, st)
  | .ok existing =>
    let final : C :=
      match existing with
      | some e => I.merge e c
      | none => c
    store_changeset I f final st

/-- A future as produced by the adapter's async contract: `pend` marks one
suspension point (one `await`), `done` the completed result.  The async
bodies in the source (lib.rs:505-508 and lib.rs:518-533) contain no
`await`, so their translations are `done` applied to the sequential
body. -/
inductive Fut (α : Type) where
  | done : α → Fut α
  | pend : Fut α → Fut α

/-- Number of times a future suspends before completing. -/
def Fut.yields {α : Type} : Fut α → Nat
  | .done _ => 0
  | .pend k => k.yields + 1

/-- Drive a future to completion and return its result. -/
def Fut.run {α : Type} : Fut α → α
  | .done a => a
  | .pend k => k.run

/-- `AsyncWalletPersister::initialize` for `RedbStore` (lib.rs:501-509):
`Box::pin(async move { ... })` around the same statement as the
synchronous body, with no `await` inside the block. -/
def initializeAsync {C : Type} (I : ChangesetImpl C) (f : Fail) (st : DbState) :
    Fut (Except RedbError C) :=
  .done ((get_changeset I f st).map (fun opt => opt.getD I.empty))

/-- `AsyncWalletPersister::persist` for `RedbStore` (lib.rs:511-534):
`Box::pin(async move { ... })` around the same statements as the
synchronous body, with no `await` inside the block. -/
def persistAsync {C : Type} (I : ChangesetImpl C) (f : Fail) (c : C) (st : DbState) :
    Fut (Except RedbError Unit × DbState) :=
  .done
    (match get_changeset I f st with
     | .error e => (.error e, st)
     | .ok existing =>
       let final : C :=
         match existing with
         | some e => I.merge e c
         | none => c
       store_changeset I f final st)

/-- A call against the persistence contract. -/
inductive WalletOp (C : Type) where
  | initOp : WalletOp C
  | persistOp : C → WalletOp C

/-- Observable outcome of one call. -/
inductive OpOut (C : Type) where
  | initOut : Except RedbError C → OpOut C
  | persistOut : Except RedbError Unit → OpOut C

/-- Run a sequence of calls through the synchronous contract, collecting
each call's returned value and the final durable state. -/
def runSync {C : Type} (I : ChangesetImpl C) (f : Fail) :
    List (WalletOp C) → DbState → List (OpOut C) × DbState
  | [], st => ([], st)
  | .initOp :: ops, st =>
    let r := initializeF I f st
    let rest := runSync I f ops st
    (.initOut r :: rest.1, rest.2)
  | .persistOp c :: ops, st =>
    let p := persistF I f c st
    let rest := runSync I f ops p.2
    (.persistOut p.1 :: rest.1, rest.2)

/-- Run a sequence of calls through the asynchronous contract (driving each
returned future to completion), collecting each call's returned value and
the final durable state. -/
def runAsync {C : Type} (I : ChangesetImpl C) (f : Fail) :
    List (WalletOp C) → DbState → List (OpOut C) × DbState
  | [], st => ([], st)
  | .initOp :: ops, st =>
    let r := (initializeAsync I f st).run
    let rest := runAsync I f ops st
    (.initOut r :: rest.1, rest.2)
  | .persistOp c :: ops, st =>
    let p := (persistAsync I f c st).run
    let rest := runAsync I f ops p.2
    (.persistOut p.1 :: rest.1, rest.2)

/-- Well-formed durable state: any byte payload stored at the fixed key
decodes. -/
def WFState {C : Type} (I : ChangesetImpl C) (st : DbState) : Prop :=
  ∀ bytes, st.table = some (some bytes) → (I.deser bytes).isSome

/-- A concrete changeset instance used to evaluate the development: natural
numbers under `max`, which is a commutative, associative, idempotent monoid
with identity `0`, with the one-element list as its byte encoding. -/
def natImpl : ChangesetImpl Nat where
  empty := 0
  is_empty c := c == 0
  merge a b := Nat.max a b
  ser c := some [c]
  deser bs :=
    match bs with
    | [c] => some c
    | _ => none

/-- A concrete changeset instance whose merge is a commutative, associative
monoid with identity but admits cancellation: the integers under
addition. -/
def intImpl : ChangesetImpl Int where
  empty := 0
  is_empty c := c == 0
  merge a b := a + b
  ser i := some (if i < 0 then [1, (-i).toNat] else [0, i.toNat])
  deser bs :=
    match bs with
    | [s, n] =>
      if s = 0 then some (n : Int)
      else if s = 1 then some (-(n : Int))
      else none
    | _ => none

theorem natImpl_lawful : LawfulChangeset natImpl := by
  refine ⟨?_, ?_, ?_, ?_, ?_, ?_, ?_⟩
  · intro a b; exact Nat.max_comm a b
  · intro a b c; exact Nat.max_assoc a b c
  · intro a; exact Nat.zero_max a
  · intro a; exact Nat.max_zero a
  · intro a; simp [natImpl]
  · intro a; simp [natImpl]
  · intro a b h
    simp [natImpl] at h
    simp [natImpl, ← h]

theorem natImpl_idem : ∀ a, natImpl.merge a a = a := by
  intro a; exact Nat.max_self a

theorem intImpl_lawful : LawfulChangeset intImpl := by
  refine ⟨?_, ?_, ?_, ?_, ?_, ?_, ?_⟩
  · intro a b; exact Int.add_comm a b
  · intro a b c; exact Int.add_assoc a b c
  · intro a; exact Int.zero_add a
  · intro a; exact Int.add_zero a
  · intro a; simp [intImpl]
  · intro a; simp [intImpl]
  · intro a b h
    simp only [intImpl] at h
    by_cases ha : a < 0
    · simp only [if_pos ha] at h
      injection h with h
      subst h
      simp [intImpl]
      omega
    · simp only [if_neg ha] at h
      injection h with h
      subst h
      simp [intImpl]
      omega

/-- In a commutative idempotent monoid, a merge equal to the identity forces
both arguments to be the identity: no information cancels. -/
theorem merge_eq_empty {C : Type} {I : ChangesetImpl C} (hl : LawfulChangeset I)
    (hid : ∀ a, I.merge a a = a) {a b : C} (h : I.merge a b = I.empty) :
    a = I.empty ∧ b = I.empty := by
  constructor
  · calc a = I.merge a I.empty := (hl.merge_empty_right a).symm
    _ = I.merge a (I.merge a b) := by rw [h]
    _ = I.merge (I.merge a a) b := (hl.merge_assoc a a b).symm
    _ = I.merge a b := by rw [hid a]
    _ = I.empty := h
  · calc b = I.merge b I.empty := (hl.merge_empty_right b).symm
    _ = I.merge b (I.merge a b) := by rw [h]
    _ = I.merge b (I.merge b a) := by rw [hl.merge_comm a b]
    _ = I.merge (I.merge b b) a := (hl.merge_assoc b b a).symm
    _ = I.merge b a := by rw [hid b]
    _ = I.empty := by rw [hl.merge_comm b a]; exact h

/-- Merging anything into a non-empty changeset stays non-empty. -/
theorem is_empty_merge_false_left {C : Type} {I : ChangesetImpl C} (hl : LawfulChangeset I)
    (hid : ∀ a, I.merge a a = a) {a b : C} (ha : I.is_empty a = false) :
    I.is_empty (I.merge a b) = false := by
  cases hx : I.is_empty (I.merge a b) with
  | false => rfl
  | true =>
    have h := merge_eq_empty hl hid ((hl.is_empty_iff _).mp hx)
    have h2 : I.is_empty a = true := (hl.is_empty_iff a).mpr h.1
    rw [ha] at h2
    simp at h2

/-- Storing an empty changeset is the identity on the state and succeeds
under every failure schedule. -/
theorem store_changeset_empty {C : Type} (I : ChangesetImpl C) (f : Fail) {c : C}
    (h : I.is_empty c = true) (st : DbState) :
    store_changeset I f c st = (.ok (), st) := by
  simp [store_changeset, h]

/-- Storing a non-empty changeset with no engine failure commits the
serialized bytes at the fixed key, whatever the prior state. -/
theorem store_changeset_noFail_ser {C : Type} (I : ChangesetImpl C) {c : C} {b : List Nat}
    (hne : I.is_empty c = false) (hb : I.ser c = some b) (st : DbState) :
    store_changeset I noFail c st = (.ok (), ⟨some (some b)⟩) := by
  simp [store_changeset, noFail, hne, hb]

/-- With the table absent, `persist` fails on the read path and leaves the
state unchanged. -/
theorem persistF_table_none {C : Type} (I : ChangesetImpl C) (c : C) :
    persistF I noFail c ⟨none⟩ = (.error .Table, ⟨none⟩) := rfl

/-- With the fixed key absent, `persist` stores the argument itself. -/
theorem persistF_key_none {C : Type} (I : ChangesetImpl C) (c : C) :
    persistF I noFail c ⟨some none⟩ = store_changeset I noFail c ⟨some none⟩ := rfl

/-- With a decodable record present, `persist` stores the record merged
with the argument. -/
theorem persistF_key_some {C : Type} (I : ChangesetImpl C) {b : List Nat} {E : C}
    (hE : I.deser b = some E) (c : C) :
    persistF I noFail c ⟨some (some b)⟩ =
      store_changeset I noFail (I.merge E c) ⟨some (some b)⟩ := by
  simp [persistF, get_changeset, noFail, hE]

/-- Claim C3: for any non-empty changeset `c`, `store_changeset c` followed
by `get_changeset` succeeds and returns `some` of a value equal (by domain
equality) to `c` — the serialize/deserialize round-trip through the single
fixed-key record. -/
theorem store_then_get_roundtrip {C : Type} (I : ChangesetImpl C)
    (hl : LawfulChangeset I) (c : C) (hne : I.is_empty c = false) (st : DbState) :
    (store_changeset I noFail c st).1 = .ok () ∧
    get_changeset I noFail (store_changeset I noFail c st).2 = .ok (some c) := by
  obtain ⟨b, hb⟩ := Option.isSome_iff_exists.mp (hl.ser_total c)
  rw [store_changeset_noFail_ser I hne hb st]
  refine ⟨rfl, ?_⟩
  simp [get_changeset, noFail, hl.roundtrip c b hb]

/-- Witness for C3 at the concrete instance `natImpl`, `c = 5`, starting
from a fresh table. -/
theorem store_then_get_roundtrip_witness :
    (store_changeset natImpl noFail 5 ⟨some none⟩).1 = .ok () ∧
    get_changeset natImpl noFail (store_changeset natImpl noFail 5 ⟨some none⟩).2 =
      .ok (some 5) :=
  store_then_get_roundtrip natImpl natImpl_lawful 5 (by decide) ⟨some none⟩

/-- Claim C4: with the table present, `get_changeset` returns `none`
exactly when the fixed key is absent; and when the key holds bytes that do
not decode, it returns a deserialization-kind error (so never `none` and
never a silently empty changeset). -/
theorem get_changeset_none_iff_absent {C : Type} (I : ChangesetImpl C)
    (kv : Option (List Nat)) :
    (get_changeset I noFail ⟨some kv⟩ = .ok none ↔ kv = none) ∧
    (∀ bytes, kv = some bytes → I.deser bytes = none →
      get_changeset I noFail ⟨some kv⟩ = .error .Deserialization) := by
  constructor
  · cases kv with
    | none => simp [get_changeset, noFail]
    | some bytes =>
      cases hd : I.deser bytes <;> simp [get_changeset, noFail, hd]
  · intro bytes hkv hd
    subst hkv
    simp [get_changeset, noFail, hd]

/-- Witness for C4 at `natImpl`: key absent, and key present with the
undecodable payload `[1, 2]`. -/
theorem get_changeset_none_iff_absent_witness :
    ((get_changeset natImpl noFail ⟨some none⟩ = .ok none ↔ (none : Option (List Nat)) = none) ∧
      (∀ bytes, (none : Option (List Nat)) = some bytes → natImpl.deser bytes = none →
        get_changeset natImpl noFail ⟨some none⟩ = .error .Deserialization)) ∧
    get_changeset natImpl noFail ⟨some (some [1, 2])⟩ = .error .Deserialization :=
  ⟨get_changeset_none_iff_absent natImpl none,
    (get_changeset_none_iff_absent natImpl (some [1, 2])).2 [1, 2] rfl rfl⟩

/-- Claim C5: `initialize` on a freshly created store, whose reserved
record is absent, returns `Ok` of the logically empty (default) changeset,
not an error. -/
theorem initialize_fresh_returns_empty {C : Type} (I : ChangesetImpl C) (st : DbState)
    (h : createStore noFail none = .ok st) :
    initializeF I noFail st = .ok I.empty := by
  simp only [createStore, noFail, Bool.false_eq_true, if_false, Except.ok.injEq] at h
  subst h
  rfl

/-- Witness for C5: the state actually produced by `createStore`. -/
theorem initialize_fresh_returns_empty_witness :
    initializeF natImpl noFail ⟨some none⟩ = .ok natImpl.empty :=
  initialize_fresh_returns_empty natImpl ⟨some none⟩ rfl

/-- Claim C6: for every sequence of initialize/persist calls against the
same store, the synchronous contract and the asynchronous contract return
identical values and leave identical final states, under every failure
schedule and changeset implementation. -/
theorem sync_async_observably_equal {C : Type} (I : ChangesetImpl C) (f : Fail)
    (ops : List (WalletOp C)) (st : DbState) :
    runAsync I f ops st = runSync I f ops st := by
  induction ops generalizing st with
  | nil => rfl
  | cons op ops ih =>
    cases op with
    | initOp => simp [runSync, runAsync, ih, initializeAsync, initializeF, Fut.run]
    | persistOp c => simp [runSync, runAsync, ih, persistAsync, persistF, Fut.run]

/-- Claim C7: `store_changeset` of a non-empty changeset is atomic at the
write-transaction boundary: on success the newly serialized bytes are the
value at the fixed key, and on any failure (transaction, table,
serialization, insert or commit) the prior state is exactly preserved. -/
theorem store_changeset_atomic {C : Type} (I : ChangesetImpl C) (f : Fail) (c : C)
    (st : DbState) (hne : I.is_empty c = false) :
    ((store_changeset I f c st).1 = .ok () →
      ∃ b, I.ser c = some b ∧ (store_changeset I f c st).2 = ⟨some (some b)⟩) ∧
    (∀ e, (store_changeset I f c st).1 = .error e → (store_changeset I f c st).2 = st) := by
  simp only [store_changeset, hne]
  cases hw : f.beginWrite <;> cases ht : f.openTableWrite <;>
    cases hs : I.ser c <;> cases hi : f.insertFail <;> cases hc : f.commitFail <;>
      simp

/-- Witness for C7 at `natImpl`, `c = 3`, on a schedule where the commit
fails: the hypothesis is discharged and the error branch fires. -/
theorem store_changeset_atomic_witness :
    (((store_changeset natImpl noFail 3 ⟨some none⟩).1 = .ok () →
      ∃ b, natImpl.ser 3 = some b ∧
        (store_changeset natImpl noFail 3 ⟨some none⟩).2 = ⟨some (some b)⟩) ∧
    (∀ e, (store_changeset natImpl noFail 3 ⟨some none⟩).1 = .error e →
      (store_changeset natImpl noFail 3 ⟨some none⟩).2 = ⟨some none⟩)) :=
  store_changeset_atomic natImpl noFail 3 ⟨some none⟩ (by decide)

/-- Counterexample to claim C8: the future returned by the async persist
performs a full write (visible in the final state) yet has zero suspension
points — it never yields control back to the caller's scheduler at the
transaction calls, because the async bodies contain no await. -/
theorem async_persist_never_yields_cex :
    (persistAsync natImpl noFail 3 ⟨some none⟩).run.2 = ⟨some (some [3])⟩ ∧
    (persistAsync natImpl noFail 3 ⟨some none⟩).yields = 0 ∧
    (initializeAsync natImpl noFail ⟨some none⟩).yields = 0 :=
  ⟨rfl, rfl, rfl⟩

/-- Claim C8 as amended: the async contract introduces no suspension
points at all — each returned future completes every transactional step in
its first poll (zero yields) and returns exactly the synchronous result;
the calling thread is blocked for the duration instead of yielding. -/
theorem async_completes_in_first_poll {C : Type} (I : ChangesetImpl C) (f : Fail)
    (c : C) (st : DbState) :
    (persistAsync I f c st).yields = 0 ∧
    (initializeAsync I f st).yields = 0 ∧
    (persistAsync I f c st).run = persistF I f c st ∧
    (initializeAsync I f st).run = initializeF I f st :=
  ⟨rfl, rfl, rfl, rfl⟩

/-- Projecting out the merge function of a changeset implementation,
keeping everything else; used to state that an operation does not invoke
the merge. -/
def mergeOverride {C : Type} (I : ChangesetImpl C) (m : C → C → C) : ChangesetImpl C :=
  { I with merge := m }

/-- `get_changeset` never consults the merge function. -/
theorem get_changeset_mergeOverride {C : Type} (I : ChangesetImpl C) (m : C → C → C)
    (f : Fail) (st : DbState) :
    get_changeset (mergeOverride I m) f st = get_changeset I f st := rfl

/-- `store_changeset` never consults the merge function. -/
theorem store_changeset_mergeOverride {C : Type} (I : ChangesetImpl C) (m : C → C → C)
    (f : Fail) (c : C) (st : DbState) :
    store_changeset (mergeOverride I m) f c st = store_changeset I f c st := rfl

/-- Claim C9: when no changeset record exists, `persist` passes its
argument to `store_changeset` verbatim: the call equals a plain
`store_changeset` of the argument, the result is unchanged under an
arbitrary replacement of the merge function (so merge is not invoked), and
the stored record is the serialization of the argument itself. -/
theorem persist_absent_stores_argument {C : Type} (I : ChangesetImpl C) (c : C)
    (st : DbState) (h : get_changeset I noFail st = .ok none) :
    persistF I noFail c st = store_changeset I noFail c st ∧
    (∀ m, persistF (mergeOverride I m) noFail c st = store_changeset I noFail c st) ∧
    (I.is_empty c = false → ∀ b, I.ser c = some b →
      (persistF I noFail c st).2 = ⟨some (some b)⟩) := by
  have h1 : persistF I noFail c st = store_changeset I noFail c st := by
    simp [persistF, h]
  refine ⟨h1, ?_, ?_⟩
  · intro m
    have h2 : get_changeset (mergeOverride I m) noFail st = .ok none := by
      rw [get_changeset_mergeOverride]; exact h
    simp [persistF, h2, store_changeset_mergeOverride]
  · intro hne b hb
    rw [h1, store_changeset_noFail_ser I hne hb]

/-- Witness for C9 at `natImpl`, `c = 7`, on a fresh table. -/
theorem persist_absent_stores_argument_witness :
    (persistF natImpl noFail 7 ⟨some none⟩ = store_changeset natImpl noFail 7 ⟨some none⟩ ∧
      (∀ m, persistF (mergeOverride natImpl m) noFail 7 ⟨some none⟩ =
        store_changeset natImpl noFail 7 ⟨some none⟩) ∧
      (natImpl.is_empty 7 = false → ∀ b, natImpl.ser 7 = some b →
        (persistF natImpl noFail 7 ⟨some none⟩).2 = ⟨some (some b)⟩)) :=
  persist_absent_stores_argument natImpl 7 ⟨some none⟩ rfl

/-- Counterexample to claim C10: on a structurally valid, unlocked file
that lacks the wallet table, `open` succeeds, but the first
`store_changeset` of a non-empty changeset does not surface a table-kind
error — the write-transaction `open_table` creates the missing table and
the call succeeds, committing the record. -/
theorem open_missing_table_cex :
    openStore (some ⟨true, false, none⟩) = .ok ⟨none⟩ ∧
    (store_changeset natImpl noFail 3 ⟨none⟩).1 = .ok () ∧
    (store_changeset natImpl noFail 3 ⟨none⟩).2 = ⟨some (some [3])⟩ :=
  ⟨rfl, rfl, rfl⟩

/-- Claim C10 as amended: `open` and `open_with_config` never access or
verify the wallet table — opening a structurally valid unlocked file
without the table succeeds and returns its table state untouched; the
missing table surfaces as a table-kind error on the first `get_changeset`
or `table_stats` call, while `store_changeset` of a non-empty changeset
creates the missing table inside its write transaction and succeeds. -/
theorem open_missing_table_amended {C : Type} (I : ChangesetImpl C) {α : Type}
    (config : α) (file : DbFile) (hv : file.valid = true) (hlk : file.locked = false) :
    openStore (some file) = .ok ⟨file.table⟩ ∧
    openWithConfig config (some file) = .ok ⟨file.table⟩ ∧
    (file.table = none → get_changeset I noFail ⟨file.table⟩ = .error .Table) ∧
    (file.table = none → tableStats noFail ⟨file.table⟩ = .error .Table) ∧
    (∀ c b, I.is_empty c = false → I.ser c = some b →
      store_changeset I noFail c ⟨none⟩ = (.ok (), ⟨some (some b)⟩)) := by
  refine ⟨?_, ?_, ?_, ?_, ?_⟩
  · simp [openStore, hv, hlk]
  · simp [openWithConfig, hv, hlk]
  · intro h; rw [h]; rfl
  · intro h; rw [h]; rfl
  · intro c b hne hb; exact store_changeset_noFail_ser I hne hb ⟨none⟩

/-- Witness for C10 as amended, at `natImpl` and a concrete valid unlocked
file without the table. -/
theorem open_missing_table_amended_witness :
    (openStore (some ⟨true, false, none⟩) = .ok ⟨(⟨true, false, none⟩ : DbFile).table⟩ ∧
      openWithConfig 0 (some ⟨true, false, none⟩) = .ok ⟨(⟨true, false, none⟩ : DbFile).table⟩ ∧
      ((⟨true, false, none⟩ : DbFile).table = none →
        get_changeset natImpl noFail ⟨(⟨true, false, none⟩ : DbFile).table⟩ = .error .Table) ∧
      ((⟨true, false, none⟩ : DbFile).table = none →
        tableStats noFail ⟨(⟨true, false, none⟩ : DbFile).table⟩ = .error .Table) ∧
      (∀ c b, natImpl.is_empty c = false → natImpl.ser c = some b →
        store_changeset natImpl noFail c ⟨none⟩ = (.ok (), ⟨some (some b)⟩))) :=
  open_missing_table_amended natImpl (0 : Nat) ⟨true, false, none⟩ rfl rfl

/-- A schedule on which beginning a read transaction fails. -/
def readFailSched : Fail := { noFail with beginRead := true }

/-- Counterexample to claim C1: `persist` of the empty changeset begins
with `get_changeset`, which opens a read transaction; on a schedule where
that acquisition fails, `persist(empty)` returns a transaction-kind error,
so it does open a transaction and can produce a transactional error. -/
theorem persist_empty_transaction_error_cex :
    natImpl.is_empty 0 = true ∧
    (persistF natImpl readFailSched 0 ⟨some none⟩).1 = .error .Transaction :=
  ⟨rfl, rfl⟩

/-- Claim C1 as amended: it is `store_changeset` — not `persist` — that
short-circuits on an empty changeset before any transaction: it succeeds
unchanged under every failure schedule.  `persist(empty)` still opens a
read transaction (and can fail there), but when no record exists it is a
complete no-op, and in every case it leaves the domain value of the store
unchanged: a subsequent `initialize` returns exactly what it returned
before. -/
theorem persist_empty_preserves_state {C : Type} (I : ChangesetImpl C)
    (hl : LawfulChangeset I) (c : C) (hc : I.is_empty c = true) (st : DbState)
    (hwf : WFState I st) :
    (∀ f, store_changeset I f c st = (.ok (), st)) ∧
    (get_changeset I noFail st = .ok none → persistF I noFail c st = (.ok (), st)) ∧
    initializeF I noFail (persistF I noFail c st).2 = initializeF I noFail st := by
  have hce : c = I.empty := (hl.is_empty_iff c).mp hc
  refine ⟨fun f => store_changeset_empty I f hc st, ?_, ?_⟩
  · intro h
    simp [persistF, h, store_changeset, hc]
  · obtain ⟨t⟩ := st
    rcases t with _ | (_ | b)
    · rfl
    · rw [persistF_key_none, store_changeset_empty I noFail hc ⟨some none⟩]
    · have hb := hwf b rfl
      obtain ⟨E, hE⟩ := Option.isSome_iff_exists.mp hb
      rw [persistF_key_some I hE c, hce, hl.merge_empty_right E]
      cases hEe : I.is_empty E with
      | true => rw [store_changeset_empty I noFail hEe ⟨some (some b)⟩]
      | false =>
        obtain ⟨b2, hb2⟩ := Option.isSome_iff_exists.mp (hl.ser_total E)
        rw [store_changeset_noFail_ser I hEe hb2]
        simp [initializeF, get_changeset, noFail, hE, hl.roundtrip E b2 hb2]

/-- Witness for C1 as amended, at `natImpl` with the empty changeset `0`
against a store holding the record for `4`. -/
theorem persist_empty_preserves_state_witness :
    ((∀ f, store_changeset natImpl f 0 ⟨some (some [4])⟩ = (.ok (), ⟨some (some [4])⟩)) ∧
      (get_changeset natImpl noFail ⟨some (some [4])⟩ = .ok none →
        persistF natImpl noFail 0 ⟨some (some [4])⟩ = (.ok (), ⟨some (some [4])⟩)) ∧
      initializeF natImpl noFail (persistF natImpl noFail 0 ⟨some (some [4])⟩).2 =
        initializeF natImpl noFail ⟨some (some [4])⟩) :=
  persist_empty_preserves_state natImpl natImpl_lawful 0 rfl ⟨some (some [4])⟩
    (by intro b h; simp at h; subst h; rfl)

/-- Counterexample to claim C2: under merge assumptions that are only
commutative, associative and empty-identity (the integers under addition),
`persist 1` then `persist (-1)` leaves the record for `1` in place (the
second merge result is empty, so the write short-circuits), while
`persist (merge 1 (-1))` = `persist 0` writes nothing at all — the stored
records differ. -/
theorem persist_merge_roundtrip_cex :
    LawfulChangeset intImpl ∧
    (persistF intImpl noFail (-1) (persistF intImpl noFail 1 ⟨some none⟩).2).2 ≠
      (persistF intImpl noFail (intImpl.merge 1 (-1)) ⟨some none⟩).2 :=
  ⟨intImpl_lawful, by decide⟩

/-- Claim C2 as amended: with the additional assumption the spec itself
makes in its data model — the merge is idempotent (union of information),
so no two changesets cancel — `persist A` then `persist B` leaves exactly
the same stored record as a single `persist (merge A B)`, from any
well-formed store state. -/
theorem persist_persist_eq_persist_merge {C : Type} (I : ChangesetImpl C)
    (hl : LawfulChangeset I) (hid : ∀ a, I.merge a a = a) (A B : C) (st : DbState)
    (hwf : WFState I st) :
    (persistF I noFail B (persistF I noFail A st).2).2 =
      (persistF I noFail (I.merge A B) st).2 := by
  obtain ⟨t⟩ := st
  rcases t with _ | (_ | b)
  · rfl
  · cases hA : I.is_empty A with
    | true =>
      have hAe : A = I.empty := (hl.is_empty_iff A).mp hA
      rw [persistF_key_none, store_changeset_empty I noFail hA ⟨some none⟩]
      rw [persistF_key_none, persistF_key_none, hAe, hl.merge_empty_left B]
    | false =>
      obtain ⟨bA, hbA⟩ := Option.isSome_iff_exists.mp (hl.ser_total A)
      rw [persistF_key_none, store_changeset_noFail_ser I hA hbA]
      rw [persistF_key_some I (hl.roundtrip A bA hbA) B, persistF_key_none]
      have hAB : I.is_empty (I.merge A B) = false := is_empty_merge_false_left hl hid hA
      obtain ⟨bAB, hbAB⟩ := Option.isSome_iff_exists.mp (hl.ser_total (I.merge A B))
      rw [store_changeset_noFail_ser I hAB hbAB, store_changeset_noFail_ser I hAB hbAB]
  · have hb := hwf b rfl
    obtain ⟨E, hE⟩ := Option.isSome_iff_exists.mp hb
    cases h1 : I.is_empty (I.merge E A) with
    | true =>
      obtain ⟨hEe, hAe⟩ := merge_eq_empty hl hid ((hl.is_empty_iff _).mp h1)
      rw [persistF_key_some I hE A, store_changeset_empty I noFail h1 ⟨some (some b)⟩]
      rw [persistF_key_some I hE B, persistF_key_some I hE (I.merge A B)]
      rw [hEe, hAe]
      simp only [hl.merge_empty_left]
    | false =>
      obtain ⟨b1, hb1⟩ := Option.isSome_iff_exists.mp (hl.ser_total (I.merge E A))
      rw [persistF_key_some I hE A, store_changeset_noFail_ser I h1 hb1]
      have hd1 : I.deser b1 = some (I.merge E A) := hl.roundtrip _ _ hb1
      rw [persistF_key_some I hd1 B, persistF_key_some I hE (I.merge A B)]
      rw [← hl.merge_assoc E A B]
      have h2 : I.is_empty (I.merge (I.merge E A) B) = false :=
        is_empty_merge_false_left hl hid h1
      obtain ⟨b2, hb2⟩ :=
        Option.isSome_iff_exists.mp (hl.ser_total (I.merge (I.merge E A) B))
      rw [store_changeset_noFail_ser I h2 hb2, store_changeset_noFail_ser I h2 hb2]

/-- Witness for C2 as amended, at `natImpl` (whose `max` merge is
idempotent), persisting `1` then `2` against a store holding the record
for `4`. -/
theorem persist_persist_eq_persist_merge_witness :
    (persistF natImpl noFail 2 (persistF natImpl noFail 1 ⟨some (some [4])⟩).2).2 =
      (persistF natImpl noFail (natImpl.merge 1 2) ⟨some (some [4])⟩).2 :=
  persist_persist_eq_persist_merge natImpl natImpl_lawful natImpl_idem 1 2
    ⟨some (some [4])⟩ (by intro b h; simp at h; subst h; rfl)
